import Mathlib

/-!
Shallow embedding of the evaluator in src/src/evaluator/evaluator.ts of
imteekay/monkey-ts, together with the AST and runtime-object model it
consumes, and proofs about the evaluator's behavior.

Modelling decisions, recorded once here:

* The host numeric type of `Integer.value` and `IntegerLiteral.value` is a
  JavaScript number; arithmetic on the integer payloads appearing in this
  fragment (including the non-truncating `/`) is modelled with `ℚ`, which is
  exact for the operations and operands the development reasons about.
* The source returns `EvalObject | null | undefined`; both `null` and
  `undefined` are modelled as `Option.none` (the evaluator never
  distinguishes them: each is only tested for truthiness).
* The only reference-identity comparisons in the source are the
  `case TRUE / case FALSE / case NULL` branches of
  `evaluateBangOperatorExpression`, which compare the operand against the
  three module-level constants. Identity is therefore modelled by a single
  Boolean field `shared` on `BooleanLiteral` and `Null`: `shared = true`
  exactly for the module-level constants `TRUE`, `FALSE`, `NULL`, and
  `shared = false` for every freshly allocated (`new BooleanLiteral ...`,
  `new Null ()`) object. Fresh allocations are never identity-compared with
  each other anywhere in the source, so this distinction is complete.
-/

/-- Discriminator returned by the `type ()` method of runtime objects,
mirroring the `ObjectTypes` enumeration of the object module. -/
inductive ObjectTypes : Type
  | INTEGER
  | BOOLEAN
  | NULL
deriving DecidableEq, Repr

/-- Runtime value produced by evaluation: `Integer`, `BooleanLiteral` or
`Null`. The extra `shared` field on `BooleanLiteral` and `Null` models
reference identity with the module-level singleton constants (see the file
header). -/
inductive EvalObject : Type
  | Integer (value : ℚ)
  | BooleanLiteral (value : Bool) (shared : Bool)
  | Null (shared : Bool)
deriving DecidableEq, Repr

/-- The module-level constant `NULL = new Null ()` of evaluator.ts. -/
def NULL : EvalObject := EvalObject.Null true

/-- The module-level constant `TRUE = new BooleanLiteral (true)`. -/
def TRUE : EvalObject := EvalObject.BooleanLiteral true true

/-- The module-level constant `FALSE = new BooleanLiteral (false)`. -/
def FALSE : EvalObject := EvalObject.BooleanLiteral false true

/-- The `type ()` discriminator of a runtime object. -/
def EvalObject.type : EvalObject → ObjectTypes
  | .Integer _ => .INTEGER
  | .BooleanLiteral _ _ => .BOOLEAN
  | .Null _ => .NULL

/-- Expression AST nodes of the fragment the evaluator consumes. Constructor
names follow the `ExpressionKind` tags of the source. -/
inductive Expression : Type
  | IntegerLiteral (value : ℚ)
  | Boolean (value : Bool)
  | Identifier (value : String)
  | Prefix (operator : String) (right : Expression)
  | Infix (operator : String) (left : Expression) (right : Expression)
deriving DecidableEq, Repr

/-- Statement AST nodes. `LetStatement` and `ReturnStatement` exist in the
AST of this fragment but are not handled by the evaluator. -/
inductive Statement : Type
  | LetStatement (name : String) (value : Expression)
  | ReturnStatement (returnValue : Expression)
  | ExpressionStatement (expression : Expression)
deriving DecidableEq, Repr

/-- The `Node` argument of `Evaluator.evaluate`: a program root, a statement
or an expression (dispatch in the source is on the `kind` tag). -/
inductive Node : Type
  | program (statements : List Statement)
  | statement (s : Statement)
  | expression (e : Expression)
deriving DecidableEq, Repr

/-- `toBooleanLiteral` of evaluator.ts: maps a host boolean to the matching
shared singleton. -/
def toBooleanLiteral (value : Bool) : EvalObject :=
  if value then TRUE else FALSE

/-- `evaluateBangOperatorExpression` of evaluator.ts: a switch on reference
identity with the singletons `TRUE`, `FALSE`, `NULL`; any object that is not
one of the three singleton instances falls through to the default branch and
yields `FALSE`. -/
def evaluateBangOperatorExpression (operand : EvalObject) : EvalObject :=
  match operand with
  | .BooleanLiteral true true => FALSE
  | .BooleanLiteral false true => TRUE
  | .Null true => TRUE
  | _ => FALSE

/-- `evaluateMinusOperatorExpression` of evaluator.ts: returns `null`
(absent) unless `operand.type ()` is `INTEGER`, else a fresh `Integer`
carrying the negated value. -/
def evaluateMinusOperatorExpression (operand : EvalObject) : Option EvalObject :=
  match operand with
  | .Integer value => some (.Integer (-value))
  | _ => none

/-- `evaluatePrefixExpression` of evaluator.ts: dispatch on the operator
string; unknown operators yield the `NULL` singleton. -/
def evaluatePrefixExpression (operator : String) (operand : EvalObject) :
    Option EvalObject :=
  match operator with
  | "!" => some (evaluateBangOperatorExpression operand)
  | "-" => evaluateMinusOperatorExpression operand
  | _ => some NULL

/-- `evaluateIntegerInfixExpression` of evaluator.ts, after the reads
`leftValue = left.value` and `rightValue = right.value`. Note that every
object built here is freshly allocated (`new Integer`, `new BooleanLiteral`,
`new Null`), so the comparison results and the default `Null` carry
`shared = false`. -/
def evaluateIntegerInfixExpression (operator : String)
    (leftValue rightValue : ℚ) : EvalObject :=
  match operator with
  | "+" => .Integer (leftValue + rightValue)
  | "-" => .Integer (leftValue - rightValue)
  | "*" => .Integer (leftValue * rightValue)
  | "/" => .Integer (leftValue / rightValue)
  | "<" => .BooleanLiteral (decide (leftValue < rightValue)) false
  | ">" => .BooleanLiteral (decide (rightValue < leftValue)) false
  | "==" => .BooleanLiteral (decide (leftValue = rightValue)) false
  | "!=" => .BooleanLiteral (decide (leftValue ≠ rightValue)) false
  | _ => .Null false

/-- `evaluateBooleanInfixExpression` of evaluator.ts, after the reads
`leftValue = left.value` and `rightValue = right.value` (value comparison,
not identity). The default branch allocates a fresh `Null`. -/
def evaluateBooleanInfixExpression (operator : String)
    (leftValue rightValue : Bool) : EvalObject :=
  match operator with
  | "==" => toBooleanLiteral (leftValue == rightValue)
  | "!=" => toBooleanLiteral (leftValue != rightValue)
  | _ => .Null false

/-- `evaluateInfixExpression` of evaluator.ts: dispatch on the pair of
runtime types via `type ()`; any combination that is not Integer-Integer or
Boolean-Boolean yields a fresh `Null`. -/
def evaluateInfixExpression (operator : String) (left right : EvalObject) :
    EvalObject :=
  match left, right with
  | .Integer leftValue, .Integer rightValue =>
      evaluateIntegerInfixExpression operator leftValue rightValue
  | .BooleanLiteral leftValue _, .BooleanLiteral rightValue _ =>
      evaluateBooleanInfixExpression operator leftValue rightValue
  | _, _ => .Null false

theorem sizeOf_statement_list_pos (l : List Statement) : 0 < sizeOf l := by
  cases l <;> simp_arith

mutual

/-- `Evaluator.evaluate` of evaluator.ts: dispatch on the node kind. The
default branch (reached by `LetStatement`, `ReturnStatement` and
`Identifier` nodes) returns `null`, and a `Infix` node whose operands do not
both produce values falls out of the switch returning `undefined`; both are
`none` here. -/
def evaluate (node : Node) : Option EvalObject :=
  match node with
  | .program statements => evaluateStatements statements
  | .statement (.ExpressionStatement expression) =>
      evaluate (.expression expression)
  | .expression (.IntegerLiteral value) => some (.Integer value)
  | .expression (.Boolean value) => some (toBooleanLiteral value)
  | .expression (.Prefix operator right) =>
      (evaluate (.expression right)).bind (evaluatePrefixExpression operator)
  | .expression (.Infix operator left right) =>
      match evaluate (.expression left), evaluate (.expression right) with
      | some evaluatedLeft, some evaluatedRight =>
          some (evaluateInfixExpression operator evaluatedLeft evaluatedRight)
      | _, _ => none
  | _ => none
termination_by sizeOf node

/-- `evaluateStatements` of evaluator.ts: evaluate each statement in order,
keeping only the last result; an empty statement list leaves the result
`undefined`. -/
def evaluateStatements (statements : List Statement) : Option EvalObject :=
  match statements with
  | [] => none
  | [statement] => evaluate (.statement statement)
  | statement :: rest =>
      let _result := evaluate (.statement statement)
      evaluateStatements rest
termination_by sizeOf statements
decreasing_by
  all_goals simp_wf
  all_goals (have h := sizeOf_statement_list_pos rest; omega)

end

/-- C3: for all integer operands, the infix operators on two Integers
produce a new Integer carrying the corresponding arithmetic result, with a
non-truncating `/`: on 5 and 2 the quotient carried is the non-integral
value 5 / 2, whose reduced denominator is 2. -/
theorem integer_arithmetic_infix_ops (a b : ℚ) (_hb : b ≠ 0) :
    evaluateIntegerInfixExpression "+" a b = .Integer (a + b) ∧
    evaluateIntegerInfixExpression "-" a b = .Integer (a - b) ∧
    evaluateIntegerInfixExpression "*" a b = .Integer (a * b) ∧
    evaluateIntegerInfixExpression "/" a b = .Integer (a / b) ∧
    evaluateIntegerInfixExpression "/" 5 2 = .Integer (5 / 2) ∧
    ((5 : ℚ) / 2).den = 2 := by
  refine ⟨rfl, rfl, rfl, rfl, rfl, ?_⟩
  norm_num

/-- Witness for C3 at the operands 5 and 2. -/
theorem integer_arithmetic_infix_ops_witness :
    (2 : ℚ) ≠ 0 ∧
    evaluateIntegerInfixExpression "/" 5 2 = .Integer (5 / 2) :=
  ⟨by norm_num, (integer_arithmetic_infix_ops 5 2 (by norm_num)).2.2.2.2.1⟩

/-- C5: the prefix `-` on an Integer operand returns a fresh Integer with
the negated value; on an operand of any other runtime type it returns the
absent result, and in particular evaluating `-true` produces no value. -/
theorem minus_operator_behavior :
    (∀ value : ℚ,
        evaluateMinusOperatorExpression (.Integer value) =
          some (.Integer (-value))) ∧
    (∀ operand : EvalObject, operand.type ≠ ObjectTypes.INTEGER →
        evaluateMinusOperatorExpression operand = none) ∧
    evaluate (.expression (.Prefix "-" (.Boolean true))) = none := by
  refine ⟨fun value => rfl, fun operand h => ?_, ?_⟩
  · cases operand with
    | Integer value => exact absurd rfl h
    | BooleanLiteral value shared => rfl
    | Null shared => rfl
  · simp [evaluate, evaluatePrefixExpression, evaluateMinusOperatorExpression,
      toBooleanLiteral, TRUE]

/-- Witness for C5 at the operand TRUE. -/
theorem minus_operator_behavior_witness :
    EvalObject.type TRUE ≠ ObjectTypes.INTEGER ∧
    evaluateMinusOperatorExpression TRUE = none :=
  ⟨by decide, minus_operator_behavior.2.1 TRUE (by decide)⟩

/-- C7: on two Boolean operands, `==` and `!=` compare the two boolean
payloads by value (identity of the operands is irrelevant) and return the
matching shared singleton; but any other operator on two Booleans returns a
freshly allocated Null object, not the shared NULL singleton. -/
theorem boolean_infix_behavior :
    (∀ a b : Bool,
        evaluateBooleanInfixExpression "==" a b = toBooleanLiteral (a == b) ∧
        evaluateBooleanInfixExpression "!=" a b = toBooleanLiteral (a != b)) ∧
    evaluateInfixExpression "==" (.BooleanLiteral true false) TRUE = TRUE ∧
    evaluateBooleanInfixExpression "*" true false = .Null false ∧
    EvalObject.Null false ≠ NULL :=
  ⟨fun a b => ⟨rfl, rfl⟩, by decide, rfl, by decide⟩

/-- C1: the integer comparison operators return a freshly allocated
BooleanLiteral, not the shared singleton: evaluating `1 < 2` yields an
object distinct from TRUE, and consequently the identity-based bang switch
misfires downstream, so `!(2 < 1)` evaluates to FALSE instead of TRUE. -/
theorem integer_comparison_returns_fresh_boolean :
    evaluate (.expression (.Infix "<" (.IntegerLiteral 1) (.IntegerLiteral 2))) =
      some (.BooleanLiteral true false) ∧
    EvalObject.BooleanLiteral true false ≠ TRUE ∧
    evaluate (.expression
        (.Prefix "!" (.Infix "<" (.IntegerLiteral 2) (.IntegerLiteral 1)))) =
      some FALSE := by
  refine ⟨?_, by decide, ?_⟩ <;>
    simp [evaluate, evaluateInfixExpression, evaluateIntegerInfixExpression,
      evaluatePrefixExpression, evaluateBangOperatorExpression, FALSE]

/-- C2: the bang truth table holds only for the three shared singleton
instances. A non-singleton false Boolean is reachable as a bang operand
(here as the result of `2 < 1`), and on it the bang operator falls through
to the default branch and returns FALSE, not TRUE; the `!!true` part of the
claim does hold and returns the shared TRUE. -/
theorem bang_on_reachable_fresh_boolean :
    evaluate (.expression (.Infix "<" (.IntegerLiteral 2) (.IntegerLiteral 1))) =
      some (.BooleanLiteral false false) ∧
    evaluateBangOperatorExpression (.BooleanLiteral false false) = FALSE ∧
    FALSE ≠ TRUE ∧
    evaluate (.expression (.Prefix "!" (.Prefix "!" (.Boolean true)))) =
      some TRUE := by
  refine ⟨?_, rfl, by decide, ?_⟩ <;>
    simp [evaluate, evaluateInfixExpression, evaluateIntegerInfixExpression,
      evaluatePrefixExpression, evaluateBangOperatorExpression,
      toBooleanLiteral, TRUE, FALSE]

/-- C4: an infix expression over a mismatched type pair returns a freshly
allocated Null object, not the shared NULL singleton; the non-singleton
Null is observable because the identity-based bang switch then misfires:
`!(true + 1)` evaluates to FALSE instead of TRUE. Evaluation is total, so
no fatal failure occurs. -/
theorem mismatched_infix_returns_fresh_null :
    evaluateInfixExpression "+" TRUE (.Integer 1) = .Null false ∧
    EvalObject.Null false ≠ NULL ∧
    evaluate (.expression
        (.Prefix "!" (.Infix "+" (.Boolean true) (.IntegerLiteral 1)))) =
      some FALSE := by
  refine ⟨rfl, by decide, ?_⟩
  simp [evaluate, evaluateInfixExpression, evaluatePrefixExpression,
    evaluateBangOperatorExpression, toBooleanLiteral, TRUE, FALSE]

theorem evaluateStatements_eq_getLast (statements : List Statement)
    (h : statements ≠ []) :
    evaluateStatements statements =
      evaluate (.statement (statements.getLast h)) := by
  induction statements with
  | nil => exact absurd rfl h
  | cons s rest ih =>
    cases rest with
    | nil => simp [evaluateStatements, List.getLast]
    | cons s2 rest2 =>
      have step : evaluateStatements (s :: s2 :: rest2) =
          evaluateStatements (s2 :: rest2) := by
        simp [evaluateStatements]
      rw [step, ih (by simp)]
      rfl

/-- C6: a non-empty Program evaluates to exactly the result of its last
statement, all earlier statement results being discarded. -/
theorem program_evaluates_to_last_statement (statements : List Statement)
    (h : statements ≠ []) :
    evaluate (.program statements) =
      evaluate (.statement (statements.getLast h)) := by
  have unfolding : evaluate (.program statements) =
      evaluateStatements statements := by simp [evaluate]
  rw [unfolding]
  exact evaluateStatements_eq_getLast statements h

/-- Witness for C6 on a concrete two-statement program. -/
theorem program_evaluates_to_last_statement_witness :
    ([Statement.ExpressionStatement (.IntegerLiteral 1),
        Statement.ExpressionStatement (.IntegerLiteral 2)] ≠
      ([] : List Statement)) ∧
    evaluate (.program [.ExpressionStatement (.IntegerLiteral 1),
        .ExpressionStatement (.IntegerLiteral 2)]) =
      evaluate (.statement (.ExpressionStatement (.IntegerLiteral 2))) :=
  ⟨by simp,
    program_evaluates_to_last_statement
      [.ExpressionStatement (.IntegerLiteral 1),
        .ExpressionStatement (.IntegerLiteral 2)] (by simp)⟩

/-- C8: an absent operand result propagates: if the right operand of a
prefix expression, or either operand of an infix expression, evaluates to
the absent result, the whole expression evaluates to the absent result
(never replaced by NULL, and no failure is raised since evaluation is a
total function). -/
theorem absent_operand_propagates :
    (∀ (operator : String) (right : Expression),
        evaluate (.expression right) = none →
        evaluate (.expression (.Prefix operator right)) = none) ∧
    (∀ (operator : String) (left right : Expression),
        evaluate (.expression left) = none ∨
          evaluate (.expression right) = none →
        evaluate (.expression (.Infix operator left right)) = none) := by
  constructor
  · intro operator right h
    simp [evaluate, h]
  · intro operator left right h
    rcases h with h | h
    · cases hr : evaluate (.expression right) <;> simp [evaluate, h, hr]
    · cases hl : evaluate (.expression left) <;> simp [evaluate, h, hl]

/-- Witness for C8: the right operand `x` is an Identifier, which evaluates
to the absent result, and so does the whole prefix expression. -/
theorem absent_operand_propagates_witness :
    evaluate (.expression (.Identifier "x")) = none ∧
    evaluate (.expression (.Prefix "!" (.Identifier "x"))) = none :=
  ⟨by simp [evaluate],
    absent_operand_propagates.1 "!" (.Identifier "x") (by simp [evaluate])⟩

/-- C10: node kinds outside Program, ExpressionStatement, IntegerLiteral,
Boolean, Prefix and Infix — namely LetStatement, ReturnStatement and
Identifier — evaluate to the absent result, as does a Program with zero
statements. -/
theorem unhandled_node_kinds_return_absent :
    (∀ (name : String) (value : Expression),
        evaluate (.statement (.LetStatement name value)) = none) ∧
    (∀ returnValue : Expression,
        evaluate (.statement (.ReturnStatement returnValue)) = none) ∧
    (∀ value : String, evaluate (.expression (.Identifier value)) = none) ∧
    evaluate (.program []) = none := by
  refine ⟨fun name value => ?_, fun returnValue => ?_, fun value => ?_, ?_⟩ <;>
    simp [evaluate, evaluateStatements]

mutual

/-- Fuel-indexed variant of `evaluate`, recursing one step per unit of
fuel: the outer `none` means the recursion-depth budget ran out, and
`some r` means evaluation completed within the budget with result `r`.
Used to state that evaluation is a bounded depth-first traversal. -/
def evaluateFuel : Nat → Node → Option (Option EvalObject)
  | 0, _ => none
  | fuel + 1, node =>
    match node with
    | .program statements => evaluateStatementsFuel fuel statements
    | .statement (.ExpressionStatement expression) =>
        evaluateFuel fuel (.expression expression)
    | .expression (.IntegerLiteral value) => some (some (.Integer value))
    | .expression (.Boolean value) => some (some (toBooleanLiteral value))
    | .expression (.Prefix operator right) =>
        match evaluateFuel fuel (.expression right) with
        | none => none
        | some evaluatedRight =>
            some (evaluatedRight.bind (evaluatePrefixExpression operator))
    | .expression (.Infix operator left right) =>
        match evaluateFuel fuel (.expression left),
            evaluateFuel fuel (.expression right) with
        | some evaluatedLeft, some evaluatedRight =>
            some (match evaluatedLeft, evaluatedRight with
              | some l, some r =>
                  some (evaluateInfixExpression operator l r)
              | _, _ => none)
        | _, _ => none
    | _ => some none

/-- Fuel-indexed variant of `evaluateStatements`. -/
def evaluateStatementsFuel : Nat → List Statement → Option (Option EvalObject)
  | 0, _ => none
  | _ + 1, [] => some none
  | fuel + 1, [statement] => evaluateFuel fuel (.statement statement)
  | fuel + 1, _ :: rest => evaluateStatementsFuel fuel rest

end

theorem evaluateFuel_complete (fuel : Nat) :
    (∀ node : Node, sizeOf node ≤ fuel →
        evaluateFuel fuel node = some (evaluate node)) ∧
    (∀ statements : List Statement, sizeOf statements ≤ fuel →
        evaluateStatementsFuel fuel statements =
          some (evaluateStatements statements)) := by
  induction fuel with
  | zero =>
    constructor
    · intro node h
      cases node <;> simp_arith at h
    · intro statements h
      have hp := sizeOf_statement_list_pos statements
      omega
  | succ fuel ih =>
    obtain ⟨ihNode, ihStmts⟩ := ih
    constructor
    · intro node h
      cases node with
      | program statements =>
        have hs : sizeOf statements ≤ fuel := by simp at h; omega
        simp [evaluateFuel, evaluate, ihStmts statements hs]
      | statement s =>
        cases s with
        | LetStatement name value => simp [evaluateFuel, evaluate]
        | ReturnStatement returnValue => simp [evaluateFuel, evaluate]
        | ExpressionStatement expression =>
          have he : sizeOf (Node.expression expression) ≤ fuel := by
            simp at h ⊢; omega
          simp [evaluateFuel, evaluate, ihNode _ he]
      | expression e =>
        cases e with
        | IntegerLiteral value => simp [evaluateFuel, evaluate]
        | Boolean value => simp [evaluateFuel, evaluate]
        | Identifier value => simp [evaluateFuel, evaluate]
        | Prefix operator right =>
          have hr : sizeOf (Node.expression right) ≤ fuel := by
            simp at h ⊢; omega
          simp [evaluateFuel, evaluate, ihNode _ hr]
        | Infix operator left right =>
          have hl : sizeOf (Node.expression left) ≤ fuel := by
            simp at h ⊢; omega
          have hr : sizeOf (Node.expression right) ≤ fuel := by
            simp at h ⊢; omega
          cases hL : evaluate (.expression left) <;>
            cases hR : evaluate (.expression right) <;>
            simp [evaluateFuel, evaluate, ihNode _ hl, ihNode _ hr, hL, hR]
    · intro statements h
      match statements with
      | [] => simp [evaluateStatementsFuel, evaluateStatements]
      | [statement] =>
        have hs : sizeOf (Node.statement statement) ≤ fuel := by
          simp at h ⊢; omega
        simp [evaluateStatementsFuel, evaluateStatements, ihNode _ hs]
      | s1 :: s2 :: rest =>
        have hs : sizeOf (s2 :: rest) ≤ fuel := by simp at h ⊢; omega
        simp [evaluateStatementsFuel, evaluateStatements, ihStmts _ hs]

/-- C9: evaluation of any finite AST node terminates, and does so as a
depth-first traversal whose recursion depth is bounded by the size of the
node: with fuel `sizeOf node` the fuel-indexed evaluator completes and
agrees with `evaluate`. -/
theorem evaluate_terminates_within_sizeOf (node : Node) :
    evaluateFuel (sizeOf node) node = some (evaluate node) :=
  (evaluateFuel_complete (sizeOf node)).1 node le_rfl

